import Mathlib

/-!
Shallow embedding of the rate-limiting subsystem of the genome exporter
repository (package `ratelimit` plus the HTTP client wrapper and the
fixed-delay limiter from the design document), together with theorems
settling the frozen claims about it.

Conventions of the embedding:
* `time.Time` instants and `time.Duration` values are integers counting
  nanoseconds (both are int64 nanoseconds in Go).
* float64 quantities (`tokens`, `rate`, backoff arithmetic) are rationals;
  float rounding is not modelled, but the explicit float-to-integer
  conversions in the source (`int(...)`, `time.Duration(...)`) are modelled
  by truncation toward zero, which is the Go conversion semantics.
* Mutex-protected mutation becomes explicit state passing.  Where the
  source releases the mutex across a sleep, the state transformation
  performed by concurrent callers during that unlocked interval is a
  function parameter.
-/

/-- Go conversion of a float64 to an integer type (`int(x)`,
`time.Duration(x)`) truncates toward zero. -/
def goTrunc (q : ℚ) : ℤ :=
  if 0 ≤ q then ⌊q⌋ else ⌈q⌉

/-- Nanoseconds in `time.Second`. -/
def nsPerSec : ℤ := 1000000000

/-- `ratelimit.Config` (config.go).  Durations are nanoseconds, floats are
rationals, the strategy tag is the Go string. -/
structure Config where
  strategy : String
  requestsPerSec : ℚ
  burst : ℤ
  fixedDelay : ℤ
  maxRetries : ℤ
  initialBackoff : ℤ
  maxBackoff : ℤ
  backoffMultiplier : ℚ
deriving Repr, DecidableEq

/-- `ratelimit.DefaultConfig` (config.go): strategy token_bucket, 3 req/s,
burst 5, fixed delay 1s, 5 retries, backoff 1s initial, 60s max, x2. -/
def DefaultConfig : Config where
  strategy := "token_bucket"
  requestsPerSec := 3
  burst := 5
  fixedDelay := nsPerSec
  maxRetries := 5
  initialBackoff := nsPerSec
  maxBackoff := 60 * nsPerSec
  backoffMultiplier := 2

/-- `ratelimit.applyDefaults` (config.go).  The Go function assigns the
fields one after another, but every `if` reads only the field it replaces
and replaces it by a constant taken from `DefaultConfig`, so the sequential
assignments are equivalent to this single record update. -/
def applyDefaults (cfg : Config) : Config where
  strategy := if cfg.strategy = "" then DefaultConfig.strategy else cfg.strategy
  requestsPerSec :=
    if cfg.requestsPerSec ≤ 0 then DefaultConfig.requestsPerSec else cfg.requestsPerSec
  burst := if cfg.burst ≤ 0 then DefaultConfig.burst else cfg.burst
  fixedDelay := if cfg.fixedDelay ≤ 0 then DefaultConfig.fixedDelay else cfg.fixedDelay
  maxRetries := if cfg.maxRetries ≤ 0 then DefaultConfig.maxRetries else cfg.maxRetries
  initialBackoff :=
    if cfg.initialBackoff ≤ 0 then DefaultConfig.initialBackoff else cfg.initialBackoff
  maxBackoff := if cfg.maxBackoff ≤ 0 then DefaultConfig.maxBackoff else cfg.maxBackoff
  backoffMultiplier :=
    if cfg.backoffMultiplier ≤ 0 then DefaultConfig.backoffMultiplier else cfg.backoffMultiplier

/-- State of `ratelimit.TokenBucket` (token_bucket.go); the mutex and the
retained config are not part of the mathematical state. -/
structure TokenBucket where
  rate : ℚ
  burst : ℤ
  tokens : ℚ
  lastUpdate : ℤ
deriving Repr, DecidableEq

/-- `ratelimit.NewTokenBucket` (token_bucket.go): applies the defaults and
starts with a full bucket; `now` is the construction instant. -/
def NewTokenBucket (cfg : Config) (now : ℤ) : TokenBucket :=
  let cfg := applyDefaults cfg
  { rate := cfg.requestsPerSec
    burst := cfg.burst
    tokens := (cfg.burst : ℚ)
    lastUpdate := now }

/-- `TokenBucket.refill` (token_bucket.go): no-op when no time has elapsed,
otherwise accrue `elapsedSeconds * rate` tokens, clip to the burst
capacity from above, and advance `lastUpdate`. -/
def TokenBucket.refill (tb : TokenBucket) (now : ℤ) : TokenBucket :=
  let elapsed := now - tb.lastUpdate
  if elapsed ≤ 0 then tb
  else
    let tokens := tb.tokens + ((elapsed : ℚ) / (nsPerSec : ℚ)) * tb.rate
    let tokens := if tokens > (tb.burst : ℚ) then (tb.burst : ℚ) else tokens
    { tb with tokens := tokens, lastUpdate := now }

/-- `TokenBucket.Allow` (token_bucket.go): refill, then consume a token
exactly when at least one is available. -/
def TokenBucket.allow (tb : TokenBucket) (now : ℤ) : Bool × TokenBucket :=
  let tb := tb.refill now
  if tb.tokens ≥ 1 then (true, { tb with tokens := tb.tokens - 1 })
  else (false, tb)

/-- `TokenBucket.Reserve` (token_bucket.go): refill; zero wait when a token
is available, otherwise `time.Duration(deficit / rate * float64(time.Second))`.
The source never decrements `tokens` in either branch. -/
def TokenBucket.reserve (tb : TokenBucket) (now : ℤ) : ℤ × TokenBucket :=
  let tb := tb.refill now
  if tb.tokens ≥ 1 then (0, tb)
  else
    let deficit := 1 - tb.tokens
    (goTrunc (deficit / tb.rate * (nsPerSec : ℚ)), tb)

/-- `TokenBucket.Reset` (token_bucket.go). -/
def TokenBucket.reset (tb : TokenBucket) (now : ℤ) : TokenBucket :=
  { tb with tokens := (tb.burst : ℚ), lastUpdate := now }

/-- The sleep duration computed inside `TokenBucket.Wait` when no token is
available: `time.Duration(deficit/tb.rate*float64(time.Second)) + time.Nanosecond`,
evaluated on the state produced by the first refill. -/
def TokenBucket.waitDuration (tb : TokenBucket) : ℤ :=
  goTrunc ((1 - tb.tokens) / tb.rate * (nsPerSec : ℚ)) + 1

/-- Result of `TokenBucket.Wait`: `ok` models `return nil`, `canceled`
models `return ctx.Err()`. -/
inductive WaitResult where
  | ok : WaitResult
  | canceled : WaitResult
deriving Repr, DecidableEq

/-- Observable outcome of one `TokenBucket.Wait` call: the returned error
value, the bucket state at return, how many timer sleeps were performed,
and whether this call decremented the token count. -/
structure WaitOutcome where
  result : WaitResult
  state : TokenBucket
  sleeps : ℕ
  consumed : Bool
deriving Repr, DecidableEq

/-- `TokenBucket.Wait` (token_bucket.go).  The source takes the lock,
refills, and consumes immediately when a token is available.  Otherwise it
releases the lock and blocks in a `select` on the context and on a timer of
`waitDuration`; `canceled` says whether the context fires first.  While the
lock is released other goroutines may operate on the bucket: `other` is the
combined effect of their operations during the sleep.  When the timer fires
(at instant `now1`) the source re-locks, refills once, consumes a token only
if one is then available, and returns nil unconditionally: there is no loop
back to another sleep. -/
def TokenBucket.wait (tb : TokenBucket) (now0 : ℤ) (canceled : Bool)
    (other : TokenBucket → TokenBucket) (now1 : ℤ) : WaitOutcome :=
  let tb := tb.refill now0
  if tb.tokens ≥ 1 then
    { result := .ok, state := { tb with tokens := tb.tokens - 1 }, sleeps := 0, consumed := true }
  else if canceled then
    { result := .canceled, state := tb, sleeps := 0, consumed := false }
  else
    let tb := (other tb).refill now1
    if tb.tokens ≥ 1 then
      { result := .ok
        state := { tb with tokens := tb.tokens - 1 }
        sleeps := 1
        consumed := true }
    else
      { result := .ok, state := tb, sleeps := 1, consumed := false }

/-- One mutex-protected operation on a token bucket, tagged with the
instant at which it runs.  `waitCheck` is the state effect of either
lock-held section of `TokenBucket.Wait` (the initial check and the
post-timer re-check): refill, then consume one token if available — the
same mutation as `Allow`. -/
inductive TBOp where
  | opAllow : ℤ → TBOp
  | opReserve : ℤ → TBOp
  | opReset : ℤ → TBOp
  | opRefill : ℤ → TBOp
  | waitCheck : ℤ → TBOp
deriving Repr, DecidableEq

/-- State effect of one token-bucket operation. -/
def TBOp.apply (op : TBOp) (tb : TokenBucket) : TokenBucket :=
  match op with
  | .opAllow now => (tb.allow now).2
  | .opReserve now => (tb.reserve now).2
  | .opReset now => tb.reset now
  | .opRefill now => tb.refill now
  | .waitCheck now => (tb.allow now).2

/-- Run a sequence of token-bucket operations, earliest first. -/
def TokenBucket.run (tb : TokenBucket) (ops : List TBOp) : TokenBucket :=
  ops.foldl (fun s op => op.apply s) tb

/-- `ratelimit.CalculateBackoff` (exponential backoff, src/unnamed/part_002).
`u` stands for the value drawn from `rand.Float64()`, which lies in
[0, 1).  The float literal 0.25 is the rational 1/4; the final
`time.Duration(backoff)` conversion truncates toward zero. -/
def CalculateBackoff (attempt : ℤ) (cfg : Config) (u : ℚ) : ℤ :=
  if attempt ≤ 0 then 0
  else if attempt > cfg.maxRetries then cfg.maxBackoff
  else
    let base := (cfg.initialBackoff : ℚ) * cfg.backoffMultiplier ^ (attempt - 1).toNat
    let base := if base > (cfg.maxBackoff : ℚ) then (cfg.maxBackoff : ℚ) else base
    let jitter := base * (1 / 4) * (2 * u - 1)
    let backoff := base + jitter
    let backoff := if backoff < 0 then 0 else backoff
    let backoff := if backoff > (cfg.maxBackoff : ℚ) then (cfg.maxBackoff : ℚ) else backoff
    goTrunc backoff

/-- `ratelimit.ShouldRetry` (src/unnamed/part_002). -/
def ShouldRetry (attempt maxRetries : ℤ) : Bool :=
  attempt ≤ maxRetries

/-- State of `ratelimit.FixedWindow` (fixed_window.go). -/
structure FixedWindow where
  limit : ℤ
  window : ℤ
  count : ℤ
  windowStart : ℤ
deriving Repr, DecidableEq

/-- `ratelimit.NewFixedWindow` (fixed_window.go): applies the defaults,
sets the per-window cap to `int(cfg.RequestsPerSec)` (Go float-to-int
truncation) and a 1-second window. -/
def NewFixedWindow (cfg : Config) (now : ℤ) : FixedWindow :=
  let cfg := applyDefaults cfg
  { limit := goTrunc cfg.requestsPerSec
    window := nsPerSec
    count := 0
    windowStart := now }

/-- `FixedWindow.resetWindowIfNeeded` (fixed_window.go). -/
def FixedWindow.resetWindowIfNeeded (fw : FixedWindow) (now : ℤ) : FixedWindow :=
  if now - fw.windowStart ≥ fw.window then { fw with count := 0, windowStart := now }
  else fw

/-- `FixedWindow.Allow` (fixed_window.go). -/
def FixedWindow.allow (fw : FixedWindow) (now : ℤ) : Bool × FixedWindow :=
  let fw := fw.resetWindowIfNeeded now
  if fw.count < fw.limit then (true, { fw with count := fw.count + 1 })
  else (false, fw)

/-- `FixedWindow.Reserve` (fixed_window.go): zero when a slot is free,
otherwise the remaining time in the current window.  It does not count an
admission. -/
def FixedWindow.reserve (fw : FixedWindow) (now : ℤ) : ℤ × FixedWindow :=
  let fw := fw.resetWindowIfNeeded now
  if fw.count < fw.limit then (0, fw)
  else (fw.window - (now - fw.windowStart), fw)

/-- `FixedWindow.Reset` (fixed_window.go). -/
def FixedWindow.reset (fw : FixedWindow) (now : ℤ) : FixedWindow :=
  { fw with count := 0, windowStart := now }

/-- `FixedWindow.Wait` (fixed_window.go).  The source is the loop
`for { if fw.Allow() { return nil }; wait := fw.Reserve(); if wait <= 0 { continue };
time.Sleep(wait + jitter) }`.  It receives a `ctx context.Context` but never
reads it: there is no `ctx.Done()` check and `time.Sleep` is not
cancellable, so the only way out of the loop is admission (`return nil`,
modelled by `some`).  The `canceled` parameter records the state of the
caller's cancellation signal; faithfully to the source, the body ignores
it. `jitter k` is the random jitter drawn on the iteration with `k` units
of fuel left; sleeping advances the clock by the slept duration.  `fuel`
bounds the number of iterations so the model is total; `none` means the
fuel ran out with the caller still looping. -/
def FixedWindow.wait (fuel : ℕ) (canceled : Bool) (fw : FixedWindow) (now : ℤ)
    (jitter : ℕ → ℤ) : Option (FixedWindow × ℤ) :=
  match fuel with
  | 0 => none
  | fuel + 1 =>
    let res := fw.allow now
    if res.1 then some (res.2, now)
    else
      let rsv := res.2.reserve now
      if rsv.1 ≤ 0 then FixedWindow.wait fuel canceled rsv.2 now jitter
      else FixedWindow.wait fuel canceled rsv.2 (now + rsv.1 + jitter fuel) jitter

/-- Run `FixedWindow.Allow` at each instant of a list, earliest first,
returning the admission verdicts in order plus the final state. -/
def FixedWindow.allowRun (fw : FixedWindow) (times : List ℤ) : List Bool × FixedWindow :=
  match times with
  | [] => ([], fw)
  | t :: ts =>
    let res := fw.allow t
    let rest := res.2.allowRun ts
    (res.1 :: rest.1, rest.2)

/-- State of `FixedDelayLimiter` (README-UPDATED.md, fixed delay limiter
section).  `lastRequest = none` models the zero `time.Time`
(`fdl.lastRequest.IsZero()`), meaning no admission recorded. -/
structure FixedDelayLimiter where
  delay : ℤ
  lastRequest : Option ℤ
deriving Repr, DecidableEq

/-- `NewFixedDelayLimiter` (README-UPDATED.md): a non-positive configured
delay is replaced by 1 second; no admission is recorded yet. -/
def NewFixedDelayLimiter (cfg : Config) : FixedDelayLimiter :=
  let d := if cfg.fixedDelay ≤ 0 then nsPerSec else cfg.fixedDelay
  { delay := d, lastRequest := none }

/-- `FixedDelayLimiter.Reserve` (README-UPDATED.md): first call admits and
records now; a call with `elapsed ≥ delay` admits and records now; a call
inside the delay returns `delay - elapsed` and records
`now + waitTime` — the speculative advancement of the admission time. -/
def FixedDelayLimiter.reserve (l : FixedDelayLimiter) (now : ℤ) : ℤ × FixedDelayLimiter :=
  match l.lastRequest with
  | none => (0, { l with lastRequest := some now })
  | some last =>
    let elapsed := now - last
    if elapsed ≥ l.delay then (0, { l with lastRequest := some now })
    else
      let waitTime := l.delay - elapsed
      (waitTime, { l with lastRequest := some (now + waitTime) })

/-- `FixedDelayLimiter.Allow` (README-UPDATED.md): `return fdl.Reserve() <= 0`. -/
def FixedDelayLimiter.allow (l : FixedDelayLimiter) (now : ℤ) : Bool × FixedDelayLimiter :=
  let res := l.reserve now
  (res.1 ≤ 0, res.2)

/-- `FixedDelayLimiter.Reset` (README-UPDATED.md): clears the recorded
last-admission time. -/
def FixedDelayLimiter.reset (l : FixedDelayLimiter) : FixedDelayLimiter :=
  { l with lastRequest := none }

/-- An HTTP response as the client wrapper observes it: its status code and
an identifier for its body (so discarding a body is observable). -/
structure HTTPResponse where
  status : ℤ
  bodyId : ℕ
deriving Repr, DecidableEq

/-- `http.StatusTooManyRequests`. -/
def statusTooManyRequests : ℤ := 429

/-- The (response, error) pair a Go HTTP call produces: `failure e` models
a non-nil error with code `e`, `response r` a non-nil response. -/
inductive HTTPResult where
  | failure : ℤ → HTTPResult
  | response : HTTPResponse → HTTPResult
deriving Repr, DecidableEq

/-- Observable outcome of one `RateLimitedClient.Do` call: the returned
(response, error) pair, how many underlying transport calls were made, the
durations slept between attempts, and which response bodies were closed
and discarded. -/
structure DoOutcome where
  result : HTTPResult
  calls : ℕ
  sleptFor : List ℤ
  closedBodies : List ℕ
deriving Repr, DecidableEq

/-- `RateLimitedClient.Do` (README-UPDATED.md, HTTP client integration).
`waitErr` is the outcome of the initial `c.limiter.Wait(ctx)` (`some e`
models a non-nil error).  `retryAfter` models `c.limiter.RetryAfter`.
`transport n` is the outcome of the `(n+1)`-th underlying `c.client.Do`
call, with errors as integer codes.  On a 429 the source closes the first
response body, sleeps for `retryAfter 1`, retries exactly once and returns
that second outcome unexamined; every other first outcome is returned
as-is after a single call. -/
def RateLimitedClient.Do (waitErr : Option ℤ) (retryAfter : ℤ → ℤ)
    (transport : ℕ → HTTPResult) : DoOutcome :=
  match waitErr with
  | some e => { result := .failure e, calls := 0, sleptFor := [], closedBodies := [] }
  | none =>
    match transport 0 with
    | .failure e => { result := .failure e, calls := 1, sleptFor := [], closedBodies := [] }
    | .response resp =>
      if resp.status = statusTooManyRequests then
        { result := transport 1
          calls := 2
          sleptFor := [retryAfter 1]
          closedBodies := [resp.bodyId] }
      else
        { result := .response resp, calls := 1, sleptFor := [], closedBodies := [] }

/-- `ratelimit.SourceConfigs` (config_loader.go).  The Go field is a map
that can be nil; `none` models the nil map, and a present map is an
association list. -/
structure SourceConfigs where
  rateLimits : Option (List (String × Config))
deriving Repr

/-- `SourceConfigs.Get` (config_loader.go): full `DefaultConfig` plus a
non-nil error when the map is nil or the source is absent; otherwise the
entry with defaults applied and a nil error. -/
def SourceConfigs.get (s : SourceConfigs) (source : String) : Config × Option String :=
  match s.rateLimits with
  | none => (DefaultConfig, some "no rate_limits configured")
  | some m =>
    match m.lookup source with
    | none => (DefaultConfig, some ("rate_limits for " ++ source ++ " not found"))
    | some cfg => (applyDefaults cfg, none)

/-- A configuration whose rate and burst are both zero, used to probe the
defaulting rules. -/
def zeroRateBurstConfig : Config where
  strategy := "token_bucket"
  requestsPerSec := 0
  burst := 0
  fixedDelay := nsPerSec
  maxRetries := 5
  initialBackoff := nsPerSec
  maxBackoff := 60 * nsPerSec
  backoffMultiplier := 2

/-- A configuration with rate 0 but a positive burst of 7, probing the
rate default on its own. -/
def zeroRateConfig : Config where
  strategy := "token_bucket"
  requestsPerSec := 0
  burst := 7
  fixedDelay := nsPerSec
  maxRetries := 5
  initialBackoff := nsPerSec
  maxBackoff := 60 * nsPerSec
  backoffMultiplier := 2

/-- A configuration with a positive rate of 4 but burst 0, probing the
burst default on its own. -/
def zeroBurstConfig : Config where
  strategy := "token_bucket"
  requestsPerSec := 4
  burst := 0
  fixedDelay := nsPerSec
  maxRetries := 5
  initialBackoff := nsPerSec
  maxBackoff := 60 * nsPerSec
  backoffMultiplier := 2

/-- Backoff configuration with a 1ns initial backoff and multiplier 3/2,
all fields positive; exposes the truncation of `time.Duration(backoff)`. -/
def tinyBackoffConfig : Config where
  strategy := "token_bucket"
  requestsPerSec := 3
  burst := 5
  fixedDelay := nsPerSec
  maxRetries := 5
  initialBackoff := 1
  maxBackoff := 60
  backoffMultiplier := 3 / 2

/-- The default configuration with requests-per-second 2, used for the
fixed-window instance of claim C6. -/
def rate2Config : Config where
  strategy := "fixed_window"
  requestsPerSec := 2
  burst := 5
  fixedDelay := nsPerSec
  maxRetries := 5
  initialBackoff := nsPerSec
  maxBackoff := 60 * nsPerSec
  backoffMultiplier := 2

/-- A 50ms fixed-delay configuration (as in TestFixedDelay). -/
def delay50msConfig : Config where
  strategy := "fixed_delay"
  requestsPerSec := 3
  burst := 5
  fixedDelay := 50000000
  maxRetries := 5
  initialBackoff := nsPerSec
  maxBackoff := 60 * nsPerSec
  backoffMultiplier := 2

/-- A fixed-window configuration with a positive sub-unit rate of 1/2
request per second. -/
def halfRateConfig : Config where
  strategy := "fixed_window"
  requestsPerSec := 1 / 2
  burst := 5
  fixedDelay := nsPerSec
  maxRetries := 5
  initialBackoff := nsPerSec
  maxBackoff := 60 * nsPerSec
  backoffMultiplier := 2

/-- The token-bucket state invariant: the token count lies in [0, burst],
and the constructed parameters are positive (rate strictly, burst at
least one). -/
def TokenBucket.goodState (tb : TokenBucket) : Prop :=
  0 ≤ tb.tokens ∧ tb.tokens ≤ (tb.burst : ℚ) ∧ 0 < tb.rate ∧ 1 ≤ tb.burst

/-! ## Theorems -/

/-- C8 counterexample.  A configuration with rate 0 and burst 0 is
defaulted to rate 3 requests per second and burst 5 — not to rate 1 and a
burst derived from the rate (which would be 3 here), as the claim
states. -/
theorem tokenBucket_defaults_claim_counterexample :
    zeroRateBurstConfig.requestsPerSec ≤ 0 ∧ zeroRateBurstConfig.burst ≤ 0 ∧
    (NewTokenBucket zeroRateBurstConfig 0).rate = 3 ∧
    (NewTokenBucket zeroRateBurstConfig 0).burst = 5 ∧
    ¬ (NewTokenBucket zeroRateBurstConfig 0).rate = 1 ∧
    ¬ (NewTokenBucket zeroRateBurstConfig 0).burst =
        max 1 (goTrunc (NewTokenBucket zeroRateBurstConfig 0).rate) := by
  decide

/-- C8 (amended): for every configuration, independently field by field,
the token-bucket constructor replaces a configured rate ≤ 0 by the fixed
default of 3 requests per second and a configured burst ≤ 0 by the fixed
default 5, while positive values of either field are kept as given; the
burst default is a constant of DefaultConfig, not derived from the
rate. -/
theorem tokenBucket_defaults (cfg : Config) (now : ℤ) :
    (cfg.requestsPerSec ≤ 0 → (NewTokenBucket cfg now).rate = 3) ∧
    (cfg.burst ≤ 0 → (NewTokenBucket cfg now).burst = 5) ∧
    (¬ cfg.requestsPerSec ≤ 0 → (NewTokenBucket cfg now).rate = cfg.requestsPerSec) ∧
    (¬ cfg.burst ≤ 0 → (NewTokenBucket cfg now).burst = cfg.burst) := by
  refine ⟨?_, ?_, ?_, ?_⟩ <;> intro h <;>
    simp [NewTokenBucket, applyDefaults, DefaultConfig, h]

/-- Witness for tokenBucket_defaults on two mixed configurations: rate 0
with positive burst 7 gets rate 3 and keeps burst 7; rate 4 with burst 0
keeps rate 4 and gets burst 5. -/
theorem tokenBucket_defaults_witness :
    (zeroRateConfig.requestsPerSec ≤ 0 ∧
      (NewTokenBucket zeroRateConfig 0).rate = 3 ∧
      (NewTokenBucket zeroRateConfig 0).burst = 7) ∧
    (zeroBurstConfig.burst ≤ 0 ∧
      (NewTokenBucket zeroBurstConfig 0).burst = 5 ∧
      (NewTokenBucket zeroBurstConfig 0).rate = 4) :=
  ⟨⟨by decide,
    (tokenBucket_defaults zeroRateConfig 0).1 (by decide),
    (tokenBucket_defaults zeroRateConfig 0).2.2.2 (by decide)⟩,
   ⟨by decide,
    (tokenBucket_defaults zeroBurstConfig 0).2.1 (by decide),
    (tokenBucket_defaults zeroBurstConfig 0).2.2.1 (by decide)⟩⟩

/-- The refill step never changes the configured rate. -/
theorem tokenBucket_refill_rate (tb : TokenBucket) (now : ℤ) :
    (tb.refill now).rate = tb.rate := by
  simp only [TokenBucket.refill]
  split <;> rfl

/-- The refill step never changes the burst capacity. -/
theorem tokenBucket_refill_burst (tb : TokenBucket) (now : ℤ) :
    (tb.refill now).burst = tb.burst := by
  simp only [TokenBucket.refill]
  split <;> rfl

/-- Branch equation for Reserve when a token is available. -/
theorem tokenBucket_reserve_eq_pos (tb : TokenBucket) (now : ℤ)
    (h : 1 ≤ (tb.refill now).tokens) :
    tb.reserve now = (0, tb.refill now) := by
  simp only [TokenBucket.reserve, ge_iff_le]
  rw [if_pos h]

/-- Branch equation for Reserve when no token is available. -/
theorem tokenBucket_reserve_eq_neg (tb : TokenBucket) (now : ℤ)
    (h : (tb.refill now).tokens < 1) :
    tb.reserve now =
      (goTrunc ((1 - (tb.refill now).tokens) / (tb.refill now).rate * (nsPerSec : ℚ)),
        tb.refill now) := by
  simp only [TokenBucket.reserve, ge_iff_le]
  rw [if_neg (not_le.mpr h)]

/-- C5 counterexample.  On a bucket holding 5 tokens, Reserve returns zero
wait but leaves the token count at 5: it does not consume the token the
claim says it consumes (which would leave 4). -/
theorem tokenBucket_reserve_claim_counterexample :
    (TokenBucket.reserve { rate := 1, burst := 5, tokens := 5, lastUpdate := 0 } 0).1 = 0 ∧
    (TokenBucket.reserve { rate := 1, burst := 5, tokens := 5, lastUpdate := 0 } 0).2.tokens = 5 ∧
    ¬ (TokenBucket.reserve { rate := 1, burst := 5, tokens := 5, lastUpdate := 0 } 0).2.tokens =
        4 := by
  decide

/-- C5 (amended): after refilling, Reserve never consumes a token in
either branch — the state it leaves is exactly the refilled state; it
returns zero wait when at least one token is available, and otherwise the
duration (1 − tokens)/rate truncated to whole nanoseconds. -/
theorem tokenBucket_reserve_no_consume (tb : TokenBucket) (now : ℤ) (h : 0 < tb.rate) :
    (tb.reserve now).2 = tb.refill now ∧
    (1 ≤ (tb.refill now).tokens → (tb.reserve now).1 = 0) ∧
    ((tb.refill now).tokens < 1 →
      ((tb.reserve now).1 : ℚ) ≤ (1 - (tb.refill now).tokens) / tb.rate * (nsPerSec : ℚ) ∧
      (1 - (tb.refill now).tokens) / tb.rate * (nsPerSec : ℚ) - 1 < ((tb.reserve now).1 : ℚ)) := by
  by_cases htok : 1 ≤ (tb.refill now).tokens
  · rw [tokenBucket_reserve_eq_pos tb now htok]
    exact ⟨rfl, fun _ => rfl, fun hlt => absurd htok (not_le.mpr hlt)⟩
  · push_neg at htok
    rw [tokenBucket_reserve_eq_neg tb now htok, tokenBucket_refill_rate]
    refine ⟨rfl, fun hle => absurd hle (not_le.mpr htok), fun _ => ?_⟩
    have hq : 0 ≤ (1 - (tb.refill now).tokens) / tb.rate * (nsPerSec : ℚ) := by
      have h1 : 0 ≤ 1 - (tb.refill now).tokens := by linarith
      have h2 : (0 : ℚ) ≤ (nsPerSec : ℚ) := by norm_num [nsPerSec]
      positivity
    unfold goTrunc
    rw [if_pos hq]
    constructor
    · exact_mod_cast Int.floor_le _
    · have := Int.sub_one_lt_floor ((1 - (tb.refill now).tokens) / tb.rate * (nsPerSec : ℚ))
      exact_mod_cast this

/-- Witness for tokenBucket_reserve_no_consume on a half-full 1 req/s
bucket. -/
theorem tokenBucket_reserve_no_consume_witness :
    (0 : ℚ) < ({ rate := 1, burst := 5, tokens := 1/2, lastUpdate := 0 } : TokenBucket).rate ∧
    (TokenBucket.reserve { rate := 1, burst := 5, tokens := 1/2, lastUpdate := 0 } 0).2 =
      TokenBucket.refill { rate := 1, burst := 5, tokens := 1/2, lastUpdate := 0 } 0 :=
  ⟨by norm_num,
    (tokenBucket_reserve_no_consume { rate := 1, burst := 5, tokens := 1/2, lastUpdate := 0 } 0
      (by norm_num)).1⟩

/-- C10: Get hands back the full DefaultConfig together with a non-nil
error both when the rate_limits map is nil and when the source is absent
from it, and DefaultConfig is fully populated (every numeric field
positive). -/
theorem sourceConfigs_get_default_on_missing (source : String) :
    (∀ s : SourceConfigs, s.rateLimits = none →
      (s.get source).1 = DefaultConfig ∧ (s.get source).2.isSome = true) ∧
    (∀ (s : SourceConfigs) (m : List (String × Config)), s.rateLimits = some m →
      m.lookup source = none →
      (s.get source).1 = DefaultConfig ∧ (s.get source).2.isSome = true) ∧
    (0 < DefaultConfig.requestsPerSec ∧ 0 < DefaultConfig.burst ∧
      0 < DefaultConfig.fixedDelay ∧ 0 < DefaultConfig.maxRetries ∧
      0 < DefaultConfig.initialBackoff ∧ 0 < DefaultConfig.maxBackoff ∧
      0 < DefaultConfig.backoffMultiplier) := by
  refine ⟨?_, ?_, by decide⟩
  · intro s h
    simp [SourceConfigs.get, h]
  · intro s m hs hm
    simp [SourceConfigs.get, hs, hm]

/-- Witness for sourceConfigs_get_default_on_missing: the nil map and an
empty map both yield DefaultConfig plus an error for source clinvar. -/
theorem sourceConfigs_get_default_on_missing_witness :
    ((SourceConfigs.get { rateLimits := none } "clinvar").1 = DefaultConfig ∧
      (SourceConfigs.get { rateLimits := none } "clinvar").2.isSome = true) ∧
    ((SourceConfigs.get { rateLimits := some [] } "clinvar").1 = DefaultConfig ∧
      (SourceConfigs.get { rateLimits := some [] } "clinvar").2.isSome = true) :=
  ⟨(sourceConfigs_get_default_on_missing "clinvar").1 { rateLimits := none } rfl,
    (sourceConfigs_get_default_on_missing "clinvar").2.1 { rateLimits := some [] } [] rfl rfl⟩

/-- C3: through the rate-limited client, a transport-level failure of the
first call is returned untouched after exactly one call; a 429 response
has its body discarded, causes a single sleep of retryAfter(1) and exactly
one retry whose outcome — success or failure, even another 429 — is
returned; any other response is returned as-is after one call; and no
execution ever makes more than two transport calls. -/
theorem rateLimitedClient_do_retry_policy (retryAfter : ℤ → ℤ)
    (transport : ℕ → HTTPResult) :
    (∀ e, transport 0 = .failure e →
      RateLimitedClient.Do none retryAfter transport =
        { result := .failure e, calls := 1, sleptFor := [], closedBodies := [] }) ∧
    (∀ resp, transport 0 = .response resp → resp.status = statusTooManyRequests →
      RateLimitedClient.Do none retryAfter transport =
        { result := transport 1, calls := 2, sleptFor := [retryAfter 1],
          closedBodies := [resp.bodyId] }) ∧
    (∀ resp, transport 0 = .response resp → ¬ resp.status = statusTooManyRequests →
      RateLimitedClient.Do none retryAfter transport =
        { result := .response resp, calls := 1, sleptFor := [], closedBodies := [] }) ∧
    (∀ waitErr, (RateLimitedClient.Do waitErr retryAfter transport).calls ≤ 2) := by
  refine ⟨?_, ?_, ?_, ?_⟩
  · intro e h
    simp [RateLimitedClient.Do, h]
  · intro resp h hs
    simp [RateLimitedClient.Do, h, hs]
  · intro resp h hs
    simp [RateLimitedClient.Do, h, hs]
  · intro waitErr
    unfold RateLimitedClient.Do
    cases waitErr with
    | some e => simp
    | none =>
      cases htr : transport 0 with
      | failure e => simp
      | response resp => by_cases hs : resp.status = statusTooManyRequests <;> simp [hs]

/-- Witness for rateLimitedClient_do_retry_policy: a mock transport that
throttles once and then succeeds yields the success after exactly one
retry and one backoff sleep. -/
theorem rateLimitedClient_do_retry_policy_witness :
    RateLimitedClient.Do none (fun _ => 7)
        (fun n => if n = 0 then .response { status := 429, bodyId := 0 }
          else .response { status := 200, bodyId := 1 }) =
      { result := .response { status := 200, bodyId := 1 }, calls := 2,
        sleptFor := [7], closedBodies := [0] } := by
  have h := (rateLimitedClient_do_retry_policy (fun _ => 7)
      (fun n => if n = 0 then .response { status := 429, bodyId := 0 }
        else .response { status := 200, bodyId := 1 })).2.1
      { status := 429, bodyId := 0 } rfl rfl
  simpa using h

/-- C7: the fixed-delay limiter admits immediately and records now on the
first reserve after construction (and after reset, which clears the
record); a reserve inside the delay returns delay − elapsed and advances
the recorded admission time to exactly one delay after the previous
record, so each successive caller is pushed one delay further out; a
reserve at or past the delay admits, records now and returns zero; Allow
admits exactly when the reserved wait is ≤ 0, so the second of two Allow
calls less than one delay apart is refused. -/
theorem fixedDelay_reserve_spec :
    (∀ cfg : Config, (NewFixedDelayLimiter cfg).lastRequest = none) ∧
    (∀ l : FixedDelayLimiter, (FixedDelayLimiter.reset l).lastRequest = none) ∧
    (∀ (l : FixedDelayLimiter) (now : ℤ), l.lastRequest = none →
      l.reserve now = (0, { l with lastRequest := some now })) ∧
    (∀ (l : FixedDelayLimiter) (last now : ℤ), l.lastRequest = some last →
      now - last < l.delay →
      (l.reserve now).1 = l.delay - (now - last) ∧
      (l.reserve now).2 = { l with lastRequest := some (last + l.delay) }) ∧
    (∀ (l : FixedDelayLimiter) (last now : ℤ), l.lastRequest = some last →
      l.delay ≤ now - last →
      l.reserve now = (0, { l with lastRequest := some now })) ∧
    (∀ (l : FixedDelayLimiter) (now : ℤ),
      ((l.allow now).1 = true ↔ (l.reserve now).1 ≤ 0) ∧
      (l.allow now).2 = (l.reserve now).2) ∧
    (∀ (l : FixedDelayLimiter) (t0 t1 : ℤ), l.lastRequest = none → t1 - t0 < l.delay →
      (l.allow t0).1 = true ∧ (((l.allow t0).2).allow t1).1 = false) := by
  have hresNone : ∀ (l : FixedDelayLimiter) (now : ℤ), l.lastRequest = none →
      l.reserve now = (0, { l with lastRequest := some now }) := by
    intro l now h
    simp only [FixedDelayLimiter.reserve, h]
  have hresLate : ∀ (l : FixedDelayLimiter) (last now : ℤ), l.lastRequest = some last →
      l.delay ≤ now - last →
      l.reserve now = (0, { l with lastRequest := some now }) := by
    intro l last now h hlate
    simp only [FixedDelayLimiter.reserve, h, ge_iff_le]
    rw [if_pos hlate]
  have hresEarly : ∀ (l : FixedDelayLimiter) (last now : ℤ), l.lastRequest = some last →
      now - last < l.delay →
      l.reserve now =
        (l.delay - (now - last), { l with lastRequest := some (now + (l.delay - (now - last))) }) := by
    intro l last now h hearly
    simp only [FixedDelayLimiter.reserve, h, ge_iff_le]
    rw [if_neg (not_le.mpr hearly)]
  refine ⟨fun cfg => rfl, fun l => rfl, hresNone, ?_, hresLate, ?_, ?_⟩
  · intro l last now h hearly
    rw [hresEarly l last now h hearly]
    refine ⟨rfl, ?_⟩
    have : now + (l.delay - (now - last)) = last + l.delay := by ring
    rw [this]
  · intro l now
    simp only [FixedDelayLimiter.allow]
    exact ⟨decide_eq_true_iff, trivial⟩
  · intro l t0 t1 h hgap
    have h1 := hresNone l t0 h
    constructor
    · simp only [FixedDelayLimiter.allow, h1]
      decide
    · have hstate : (l.allow t0).2 = { delay := l.delay, lastRequest := some t0 } := by
        simp only [FixedDelayLimiter.allow, h1]

      rw [hstate]
      have h3 := hresEarly { delay := l.delay, lastRequest := some t0 } t0 t1 rfl hgap
      simp only [FixedDelayLimiter.allow, h3, decide_eq_false_iff_not, not_le]
      omega

/-- Witness for fixedDelay_reserve_spec: with a 50ms delay, an Allow at
t = 0 is admitted and a second Allow 10ms later is refused. -/
theorem fixedDelay_reserve_spec_witness :
    (NewFixedDelayLimiter delay50msConfig).lastRequest = none ∧
    (10000000 : ℤ) - 0 < (NewFixedDelayLimiter delay50msConfig).delay ∧
    (((NewFixedDelayLimiter delay50msConfig).allow 0).1 = true ∧
      ((((NewFixedDelayLimiter delay50msConfig).allow 0).2).allow 10000000).1 = false) :=
  ⟨by decide, by decide,
    fixedDelay_reserve_spec.2.2.2.2.2.2 (NewFixedDelayLimiter delay50msConfig) 0 10000000
      (by decide) (by decide)⟩

/-- C2 (code bug): the result of FixedWindow.Wait is entirely independent
of the state of the caller's cancellation signal — the source accepts a
context but never consults it, and its only exit is admission — and in
particular a caller whose signal has already fired (here: at the window
cap, at t = 0, fuel 2) is put to sleep and then admitted instead of
receiving the cancellation error; no cancellation outcome exists in the
return type of the model because the source has no code path returning
one. -/
theorem fixedWindow_wait_ignores_cancellation :
    (∀ (fuel : ℕ) (c1 c2 : Bool) (fw : FixedWindow) (now : ℤ) (jitter : ℕ → ℤ),
      FixedWindow.wait fuel c1 fw now jitter = FixedWindow.wait fuel c2 fw now jitter) ∧
    FixedWindow.wait 2 true { limit := 2, window := nsPerSec, count := 2, windowStart := 0 } 0
        (fun _ => 0) =
      some ({ limit := 2, window := nsPerSec, count := 1, windowStart := nsPerSec },
        nsPerSec) := by
  constructor
  · intro fuel
    induction fuel with
    | zero => intro c1 c2 fw now jitter; rfl
    | succ n ih =>
      intro c1 c2 fw now jitter
      simp only [FixedWindow.wait]
      by_cases h1 : (fw.allow now).1
      · simp [h1]
      · simp only [h1, if_false, Bool.false_eq_true]
        by_cases h2 : ((fw.allow now).2.reserve now).1 ≤ 0
        · rw [if_pos h2, if_pos h2]
          exact ih c1 c2 _ _ _
        · rw [if_neg h2, if_neg h2]
          exact ih c1 c2 _ _ _
  · decide

/-- C1 counterexample.  Take a bucket with rate 1/s, burst 1, zero tokens.
Wait at t = 0 computes the 1s + 1ns sleep; the timer fires exactly that
much later, but during the sleep (while the mutex is released) a
concurrent caller's Allow consumes the refilled token.  The re-check then
finds no token, yet Wait still returns success, with no token consumed by
the waiter — it does not keep re-checking in a loop until a token is
actually obtained, as the claim states. -/
theorem tokenBucket_wait_claim_counterexample :
    (TokenBucket.refill { rate := 1, burst := 1, tokens := 0, lastUpdate := 0 } 0).waitDuration =
      nsPerSec + 1 ∧
    (TokenBucket.wait { rate := 1, burst := 1, tokens := 0, lastUpdate := 0 } 0 false
        (fun s => (s.allow (nsPerSec + 1)).2) (nsPerSec + 1)).result = .ok ∧
    (TokenBucket.wait { rate := 1, burst := 1, tokens := 0, lastUpdate := 0 } 0 false
        (fun s => (s.allow (nsPerSec + 1)).2) (nsPerSec + 1)).consumed = false ∧
    (TokenBucket.wait { rate := 1, burst := 1, tokens := 0, lastUpdate := 0 } 0 false
        (fun s => (s.allow (nsPerSec + 1)).2) (nsPerSec + 1)).state.tokens = 0 := by
  norm_num [TokenBucket.wait, TokenBucket.refill, TokenBucket.allow, TokenBucket.waitDuration,
    goTrunc, nsPerSec]

/-- C1 (amended): Wait returns the cancellation error exactly when the
signal fires during the sleep, i.e. when no token was available at the
initial check and the context is cancelled, and then consumes nothing and
leaves the state exactly as the first refill left it; otherwise it returns
success after at most one sleep, consuming a token exactly when one is
available at the initial check or at the single post-sleep re-check — it
can return success without having consumed a token. -/
theorem tokenBucket_wait_single_recheck (tb : TokenBucket) (now0 now1 : ℤ)
    (canceled : Bool) (other : TokenBucket → TokenBucket) :
    ((tb.wait now0 canceled other now1).result = .canceled ↔
      canceled = true ∧ (tb.refill now0).tokens < 1) ∧
    ((tb.wait now0 canceled other now1).result = .canceled →
      (tb.wait now0 canceled other now1).state = tb.refill now0 ∧
      (tb.wait now0 canceled other now1).consumed = false) ∧
    (tb.wait now0 canceled other now1).sleeps ≤ 1 ∧
    ((tb.wait now0 canceled other now1).consumed = true ↔
      1 ≤ (tb.refill now0).tokens ∨
        (canceled = false ∧ (tb.refill now0).tokens < 1 ∧
          1 ≤ ((other (tb.refill now0)).refill now1).tokens)) := by
  by_cases h1 : (tb.refill now0).tokens ≥ 1
  · have hw : tb.wait now0 canceled other now1 =
        { result := .ok,
          state := { tb.refill now0 with tokens := (tb.refill now0).tokens - 1 },
          sleeps := 0, consumed := true } := by
      simp only [TokenBucket.wait, ge_iff_le]
      rw [if_pos h1]
    rw [hw]
    simp only [ge_iff_le] at h1
    simp [h1]
  · simp only [ge_iff_le, not_le] at h1
    cases canceled with
    | true =>
      have hw : tb.wait now0 true other now1 =
          { result := .canceled, state := tb.refill now0, sleeps := 0, consumed := false } := by
        simp only [TokenBucket.wait, ge_iff_le]
        rw [if_neg (not_le.mpr h1)]
        simp
      rw [hw]
      simp [h1, le_of_lt]
    | false =>
      by_cases h2 : 1 ≤ ((other (tb.refill now0)).refill now1).tokens
      · have hw : tb.wait now0 false other now1 =
            { result := .ok,
              state := { (other (tb.refill now0)).refill now1 with
                tokens := ((other (tb.refill now0)).refill now1).tokens - 1 },
              sleeps := 1, consumed := true } := by
          simp only [TokenBucket.wait, ge_iff_le]
          rw [if_neg (not_le.mpr h1), if_neg (by simp), if_pos h2]
        rw [hw]
        simp [h1, h2, not_le.mpr h1]
      · have hw : tb.wait now0 false other now1 =
            { result := .ok, state := (other (tb.refill now0)).refill now1,
              sleeps := 1, consumed := false } := by
          simp only [TokenBucket.wait, ge_iff_le]
          rw [if_neg (not_le.mpr h1), if_neg (by simp), if_neg h2]
        rw [hw]
        simp [h1, h2, not_le.mpr h1]


/-- Within one window (every call strictly less than one window after the
window start), Allow admits while the count is below the cap and refuses
afterwards; the window fields stay fixed and the count rises to the cap. -/
theorem fixedWindow_allowRun_within (times : List ℤ) (fw : FixedWindow)
    (h : ∀ t ∈ times, t - fw.windowStart < fw.window) :
    (fw.allowRun times).1 =
      (List.range times.length).map (fun i : ℕ => decide (fw.count + (i : ℤ) < fw.limit)) ∧
    (fw.allowRun times).2.limit = fw.limit ∧
    (fw.allowRun times).2.window = fw.window ∧
    (fw.allowRun times).2.windowStart = fw.windowStart ∧
    (fw.allowRun times).2.count = min (max fw.count fw.limit) (fw.count + times.length) := by
  induction times generalizing fw with
  | nil =>
    refine ⟨by simp [FixedWindow.allowRun], rfl, rfl, rfl, ?_⟩
    simp only [FixedWindow.allowRun, List.length_nil]
    omega
  | cons t ts ih =>
    have ht : t - fw.windowStart < fw.window := h t (List.mem_cons_self t ts)
    have hts : ∀ u ∈ ts, u - fw.windowStart < fw.window :=
      fun u hu => h u (List.mem_cons_of_mem t hu)
    have hreset : fw.resetWindowIfNeeded t = fw := by
      simp only [FixedWindow.resetWindowIfNeeded]
      rw [if_neg (by omega)]
    by_cases hc : fw.count < fw.limit
    · have hallow : fw.allow t = (true, { fw with count := fw.count + 1 }) := by
        simp only [FixedWindow.allow, hreset]
        rw [if_pos hc]
      have ih2 := ih { fw with count := fw.count + 1 } hts
      simp only [FixedWindow.allowRun, hallow]
      refine ⟨?_, ih2.2.1, ih2.2.2.1, ih2.2.2.2.1, ?_⟩
      · rw [ih2.1]
        simp only [List.length_cons, List.range_succ_eq_map, List.map_cons, List.map_map]
        rw [List.cons_eq_cons]
        refine ⟨by simp [hc], ?_⟩
        apply List.map_congr_left
        intro i _
        simp only [Function.comp_apply]
        rw [decide_eq_decide]
        omega
      · have hcount := ih2.2.2.2.2
        simp only at hcount
        rw [hcount]
        simp only [List.length_cons]
        omega
    · have hallow : fw.allow t = (false, fw) := by
        simp only [FixedWindow.allow, hreset]
        rw [if_neg hc]
      have ih2 := ih fw hts
      simp only [FixedWindow.allowRun, hallow]
      refine ⟨?_, ih2.2.1, ih2.2.2.1, ih2.2.2.2.1, ?_⟩
      · rw [ih2.1]
        simp only [List.length_cons, List.range_succ_eq_map, List.map_cons, List.map_map]
        rw [List.cons_eq_cons]
        refine ⟨by simp [hc], ?_⟩
        apply List.map_congr_left
        intro i _
        simp only [Function.comp_apply]
        rw [decide_eq_decide]
        omega
      · rw [ih2.2.2.2.2]
        simp only [List.length_cons]
        omega

/-- C6 counterexample.  A fixed-window limiter built from a positive rate
of 1/2 request per second has cap floor(1/2) = 0, and even after a full
window has elapsed Allow still refuses — the claim that once the window
has elapsed Allow admits again fails for 0 < R < 1. -/
theorem fixedWindow_cap_claim_counterexample :
    (0 : ℚ) < halfRateConfig.requestsPerSec ∧
    (NewFixedWindow halfRateConfig 0).limit = 0 ∧
    ((NewFixedWindow halfRateConfig 0).allow nsPerSec).1 = false := by
  have hfw : NewFixedWindow halfRateConfig 0 =
      { limit := 0, window := nsPerSec, count := 0, windowStart := 0 } := by
    norm_num [NewFixedWindow, applyDefaults, halfRateConfig, DefaultConfig, goTrunc]
  refine ⟨by norm_num [halfRateConfig], by rw [hfw], ?_⟩
  rw [hfw]
  decide

/-- C6 (amended): for a configured rate R ≥ 1 the cap is floor(R); within
one window (all call instants less than one second past the start) the
i-th Allow succeeds exactly when i < floor(R) — so exactly floor(R) calls
are admitted and all further ones refused — and a call made once the
window has elapsed is admitted again.  For 0 < R < 1 the cap is 0 and the
post-window admission fails (see the counterexample). -/
theorem fixedWindow_cap (cfg : Config) (now0 t2 : ℤ) (times : List ℤ)
    (hR : 1 ≤ cfg.requestsPerSec)
    (ht : ∀ t ∈ times, t - now0 < nsPerSec)
    (h2 : now0 + nsPerSec ≤ t2) :
    (NewFixedWindow cfg now0).limit = ⌊cfg.requestsPerSec⌋ ∧
    ((NewFixedWindow cfg now0).allowRun times).1 =
      (List.range times.length).map (fun i : ℕ => decide ((i : ℤ) < ⌊cfg.requestsPerSec⌋)) ∧
    ((((NewFixedWindow cfg now0).allowRun times).2).allow t2).1 = true := by
  have hRpos : ¬ cfg.requestsPerSec ≤ 0 := by
    intro hcon
    linarith
  have hfw : NewFixedWindow cfg now0 =
      { limit := ⌊cfg.requestsPerSec⌋, window := nsPerSec, count := 0, windowStart := now0 } := by
    simp only [NewFixedWindow, applyDefaults, hRpos, if_false, goTrunc]
    rw [if_pos (by linarith)]
  have hlimge : 1 ≤ ⌊cfg.requestsPerSec⌋ := by
    rw [Int.le_floor]
    exact_mod_cast hR
  rw [hfw]
  have hrun := fixedWindow_allowRun_within times
    { limit := ⌊cfg.requestsPerSec⌋, window := nsPerSec, count := 0, windowStart := now0 }
    (by simpa using ht)
  refine ⟨rfl, ?_, ?_⟩
  · rw [hrun.1]
    simp
  · set fwEnd := (FixedWindow.allowRun
      { limit := ⌊cfg.requestsPerSec⌋, window := nsPerSec, count := 0, windowStart := now0 }
      times).2 with hfwEnd
    have hs : fwEnd.windowStart = now0 := by simpa using hrun.2.2.2.1
    have hw : fwEnd.window = nsPerSec := by simpa using hrun.2.2.1
    have hl : fwEnd.limit = ⌊cfg.requestsPerSec⌋ := by simpa using hrun.2.1
    have hresetEnd : fwEnd.resetWindowIfNeeded t2 =
        { fwEnd with count := 0, windowStart := t2 } := by
      simp only [FixedWindow.resetWindowIfNeeded]
      rw [if_pos (by rw [hs, hw]; omega)]
    simp only [FixedWindow.allow, hresetEnd]
    rw [if_pos (show ({ fwEnd with count := 0, windowStart := t2 } : FixedWindow).count <
        ({ fwEnd with count := 0, windowStart := t2 } : FixedWindow).limit by
      simp only
      rw [hl]
      omega)]

/-- Witness for fixedWindow_cap: with rate 2 and calls at 0ns, 1ns, 2ns
the verdicts are admit, admit, refuse, and a call at the 1-second mark is
admitted again. -/
theorem fixedWindow_cap_witness :
    (NewFixedWindow rate2Config 0).limit = ⌊rate2Config.requestsPerSec⌋ ∧
    ((NewFixedWindow rate2Config 0).allowRun [0, 1, 2]).1 =
      (List.range ([0, 1, 2] : List ℤ).length).map
        (fun i : ℕ => decide ((i : ℤ) < ⌊rate2Config.requestsPerSec⌋)) ∧
    ((((NewFixedWindow rate2Config 0).allowRun [0, 1, 2]).2).allow nsPerSec).1 = true :=
  fixedWindow_cap rate2Config 0 nsPerSec [0, 1, 2]
    (by norm_num [rate2Config])
    (by intro t htmem; fin_cases htmem <;> norm_num [nsPerSec])
    (by norm_num)

/-- C4 counterexample.  With all fields positive (initial backoff 1ns,
multiplier 3/2, max 60ns, 5 retries) and the random draw u = 9/10, attempt
2 yields base 3/2 and jittered value 9/5, which time.Duration truncates to
1ns — strictly below the claimed lower bound 0.75 x base = 9/8, so the
returned duration falls outside [0.75 x base, 1.25 x base] clipped to
[0, maxBackoff]. -/
theorem calculateBackoff_claim_counterexample :
    (0 ≤ (9/10 : ℚ) ∧ (9/10 : ℚ) < 1) ∧
    0 < tinyBackoffConfig.initialBackoff ∧ 0 < tinyBackoffConfig.maxBackoff ∧
    0 < tinyBackoffConfig.backoffMultiplier ∧ 0 < tinyBackoffConfig.maxRetries ∧
    (tinyBackoffConfig.initialBackoff : ℚ) *
        tinyBackoffConfig.backoffMultiplier ^ ((2 : ℤ) - 1).toNat ≤
      (tinyBackoffConfig.maxBackoff : ℚ) ∧
    CalculateBackoff 2 tinyBackoffConfig (9/10) = 1 ∧
    ((CalculateBackoff 2 tinyBackoffConfig (9/10) : ℤ) : ℚ) <
      3 / 4 * ((tinyBackoffConfig.initialBackoff : ℚ) *
        tinyBackoffConfig.backoffMultiplier ^ ((2 : ℤ) - 1).toNat) := by
  have hval : CalculateBackoff 2 tinyBackoffConfig (9/10) = 1 := by
    norm_num [CalculateBackoff, tinyBackoffConfig, goTrunc]
  refine ⟨by norm_num, by norm_num [tinyBackoffConfig], by norm_num [tinyBackoffConfig],
    by norm_num [tinyBackoffConfig], by norm_num [tinyBackoffConfig],
    by norm_num [tinyBackoffConfig], hval, ?_⟩
  rw [hval]
  norm_num [tinyBackoffConfig]

/-- C4 (amended): attempt ≤ 0 returns 0; attempt above maxRetries returns
exactly maxBackoff with no dependence on the random draw; otherwise, for
every draw u in [0, 1), the result lies within [0.75 x base − 1ns,
1.25 x base] further clipped to [0, maxBackoff], where base is
initialBackoff x multiplier^(attempt−1) capped at maxBackoff — the final
truncation of time.Duration(backoff) to whole nanoseconds can land the
result up to one nanosecond below 0.75 x base. -/
theorem calculateBackoff_bounds (cfg : Config) (attempt : ℤ) (u : ℚ)
    (hi : 0 < cfg.initialBackoff) (hM : 0 < cfg.maxBackoff)
    (hmul : 0 < cfg.backoffMultiplier) (hr : 0 < cfg.maxRetries)
    (hu0 : 0 ≤ u) (hu1 : u < 1) :
    (attempt ≤ 0 → CalculateBackoff attempt cfg u = 0) ∧
    (cfg.maxRetries < attempt → CalculateBackoff attempt cfg u = cfg.maxBackoff) ∧
    (0 < attempt → attempt ≤ cfg.maxRetries →
      0 ≤ CalculateBackoff attempt cfg u ∧
      CalculateBackoff attempt cfg u ≤ cfg.maxBackoff ∧
      3 / 4 * min ((cfg.initialBackoff : ℚ) * cfg.backoffMultiplier ^ (attempt - 1).toNat)
          (cfg.maxBackoff : ℚ) - 1 ≤ (CalculateBackoff attempt cfg u : ℚ) ∧
      (CalculateBackoff attempt cfg u : ℚ) ≤
        5 / 4 * min ((cfg.initialBackoff : ℚ) * cfg.backoffMultiplier ^ (attempt - 1).toNat)
          (cfg.maxBackoff : ℚ)) := by
  refine ⟨?_, ?_, ?_⟩
  · intro h
    simp only [CalculateBackoff]
    rw [if_pos h]
  · intro h
    simp only [CalculateBackoff]
    rw [if_neg (by omega), if_pos (by omega)]
  · intro h1 h2
    have hA : ¬ attempt ≤ 0 := by omega
    have hB : ¬ attempt > cfg.maxRetries := by omega
    simp only [CalculateBackoff]
    rw [if_neg hA, if_neg hB]
    set baseRaw : ℚ := (cfg.initialBackoff : ℚ) * cfg.backoffMultiplier ^ (attempt - 1).toNat
      with hbraw
    have hbrPos : 0 < baseRaw := by
      rw [hbraw]
      apply mul_pos
      · exact_mod_cast hi
      · exact pow_pos hmul _
    clear_value baseRaw
    have hMQ : (0 : ℚ) < (cfg.maxBackoff : ℚ) := by exact_mod_cast hM
    set b : ℚ := if baseRaw > (cfg.maxBackoff : ℚ) then (cfg.maxBackoff : ℚ) else baseRaw
      with hbdef
    have hbmin : b = min baseRaw (cfg.maxBackoff : ℚ) := by
      by_cases hx : baseRaw > (cfg.maxBackoff : ℚ)
      · rw [hbdef, if_pos hx, min_eq_right (le_of_lt hx)]
      · rw [hbdef, if_neg hx, min_eq_left (not_lt.mp hx)]
    clear_value b
    have hbPos : 0 < b := by
      rw [hbmin]
      exact lt_min hbrPos hMQ
    have hbM : b ≤ (cfg.maxBackoff : ℚ) := by
      rw [hbmin]
      exact min_le_right _ _
    set s : ℚ := b + b * (1 / 4) * (2 * u - 1) with hsdef
    have hsLow : 3 / 4 * b ≤ s := by
      rw [hsdef]
      nlinarith [mul_nonneg (le_of_lt hbPos) hu0]
    have hsHigh : s < 5 / 4 * b := by
      rw [hsdef]
      nlinarith [mul_lt_mul_of_pos_left (show 2 * u - 1 < 1 by linarith)
        (show (0 : ℚ) < b * (1 / 4) by linarith)]
    clear_value s
    have hsPos : 0 ≤ s := by linarith
    rw [if_neg (not_lt.mpr hsPos)]
    set tfin : ℚ := if s > (cfg.maxBackoff : ℚ) then (cfg.maxBackoff : ℚ) else s with htdef
    have htLow : 3 / 4 * b ≤ tfin := by
      by_cases hx : s > (cfg.maxBackoff : ℚ)
      · rw [htdef, if_pos hx]
        linarith
      · rw [htdef, if_neg hx]
        exact hsLow
    have htHigh : tfin ≤ 5 / 4 * b := by
      by_cases hx : s > (cfg.maxBackoff : ℚ)
      · rw [htdef, if_pos hx]
        linarith
      · rw [htdef, if_neg hx]
        linarith
    have htM : tfin ≤ (cfg.maxBackoff : ℚ) := by
      by_cases hx : s > (cfg.maxBackoff : ℚ)
      · rw [htdef, if_pos hx]
      · rw [htdef, if_neg hx]
        exact not_lt.mp hx
    have htPos : 0 ≤ tfin := by
      by_cases hx : s > (cfg.maxBackoff : ℚ)
      · rw [htdef, if_pos hx]
        exact le_of_lt hMQ
      · rw [htdef, if_neg hx]
        exact hsPos
    clear_value tfin
    unfold goTrunc
    rw [if_pos htPos]
    rw [← hbmin]
    refine ⟨Int.floor_nonneg.mpr htPos, ?_, ?_, ?_⟩
    · have hle := Int.floor_le_floor htM
      rwa [Int.floor_intCast] at hle
    · have hgt := Int.sub_one_lt_floor tfin
      linarith
    · have hle := Int.floor_le tfin
      linarith

/-- Witness for calculateBackoff_bounds: with the default configuration,
attempt 3 and draw 1/2, the result is nonnegative and at most the
configured maximum backoff. -/
theorem calculateBackoff_bounds_witness :
    (0 : ℤ) < 3 ∧ (3 : ℤ) ≤ DefaultConfig.maxRetries ∧
    0 ≤ CalculateBackoff 3 DefaultConfig (1/2) ∧
    CalculateBackoff 3 DefaultConfig (1/2) ≤ DefaultConfig.maxBackoff := by
  have h := (calculateBackoff_bounds DefaultConfig 3 (1/2)
    (by norm_num [DefaultConfig, nsPerSec]) (by norm_num [DefaultConfig, nsPerSec])
    (by norm_num [DefaultConfig]) (by norm_num [DefaultConfig])
    (by norm_num) (by norm_num)).2.2 (by norm_num) (by norm_num [DefaultConfig])
  exact ⟨by norm_num, by norm_num [DefaultConfig], h.1, h.2.1⟩

/-- Refill preserves the state invariant: accrual only adds a nonnegative
amount and is clipped to the burst capacity from above. -/
theorem tokenBucket_refill_good (tb : TokenBucket) (now : ℤ) (h : tb.goodState) :
    (tb.refill now).goodState := by
  obtain ⟨h0, h1, h2, h3⟩ := h
  have hb0 : (0 : ℚ) ≤ (tb.burst : ℚ) := by
    have : (0 : ℤ) ≤ tb.burst := by omega
    exact_mod_cast this
  simp only [TokenBucket.refill]
  split
  · exact ⟨h0, h1, h2, h3⟩
  · rename_i he
    simp only [TokenBucket.goodState]
    split_ifs with hT
    · exact ⟨hb0, le_refl _, h2, h3⟩
    · have hadd : 0 ≤ ((now - tb.lastUpdate : ℤ) : ℚ) / (nsPerSec : ℚ) * tb.rate := by
        apply mul_nonneg
        · apply div_nonneg
          · have : (0 : ℤ) ≤ now - tb.lastUpdate := by omega
            exact_mod_cast this
          · norm_num [nsPerSec]
        · exact le_of_lt h2
      exact ⟨by linarith, not_lt.mp (by exact_mod_cast hT), h2, h3⟩

/-- Allow preserves the state invariant: a token is removed only when at
least one is present. -/
theorem tokenBucket_allow_good (tb : TokenBucket) (now : ℤ) (h : tb.goodState) :
    ((tb.allow now).2).goodState := by
  have hr := tokenBucket_refill_good tb now h
  obtain ⟨a, b, c, d⟩ := hr
  simp only [TokenBucket.allow]
  split_ifs with h1
  · refine ⟨?_, ?_, c, d⟩
    · show (0 : ℚ) ≤ (tb.refill now).tokens - 1
      linarith
    · show (tb.refill now).tokens - 1 ≤ ((tb.refill now).burst : ℚ)
      linarith
  · exact ⟨a, b, c, d⟩

/-- Reserve preserves the state invariant (it only refills). -/
theorem tokenBucket_reserve_good (tb : TokenBucket) (now : ℤ) (h : tb.goodState) :
    ((tb.reserve now).2).goodState := by
  by_cases h1 : 1 ≤ (tb.refill now).tokens
  · rw [tokenBucket_reserve_eq_pos tb now h1]
    exact tokenBucket_refill_good tb now h
  · rw [tokenBucket_reserve_eq_neg tb now (not_le.mp h1)]
    exact tokenBucket_refill_good tb now h

/-- Reset preserves the state invariant and restores a full bucket. -/
theorem tokenBucket_reset_good (tb : TokenBucket) (now : ℤ) (h : tb.goodState) :
    (tb.reset now).goodState := by
  obtain ⟨h0, h1, h2, h3⟩ := h
  refine ⟨?_, le_refl _, h2, h3⟩
  show (0 : ℚ) ≤ (tb.burst : ℚ)
  have : (0 : ℤ) ≤ tb.burst := by omega
  exact_mod_cast this

/-- Every token-bucket operation preserves the state invariant. -/
theorem tbOp_apply_good (op : TBOp) (tb : TokenBucket) (h : tb.goodState) :
    (op.apply tb).goodState := by
  cases op with
  | opAllow now => exact tokenBucket_allow_good tb now h
  | opReserve now => exact tokenBucket_reserve_good tb now h
  | opReset now => exact tokenBucket_reset_good tb now h
  | opRefill now => exact tokenBucket_refill_good tb now h
  | waitCheck now => exact tokenBucket_allow_good tb now h

/-- Running any operation sequence preserves the state invariant. -/
theorem tokenBucket_run_good (ops : List TBOp) (tb : TokenBucket) (h : tb.goodState) :
    (tb.run ops).goodState := by
  induction ops generalizing tb with
  | nil => exact h
  | cons op ops ih =>
    exact ih (op.apply tb) (tbOp_apply_good op tb h)

/-- The constructor establishes the state invariant. -/
theorem newTokenBucket_good (cfg : Config) (now : ℤ) :
    (NewTokenBucket cfg now).goodState := by
  simp only [NewTokenBucket, applyDefaults, TokenBucket.goodState]
  have hB : 1 ≤ (if cfg.burst ≤ 0 then DefaultConfig.burst else cfg.burst) := by
    split_ifs with hx
    · norm_num [DefaultConfig]
    · omega
  have hR : 0 < (if cfg.requestsPerSec ≤ 0 then DefaultConfig.requestsPerSec
      else cfg.requestsPerSec) := by
    split_ifs with hx
    · norm_num [DefaultConfig]
    · linarith [not_le.mp hx]
  refine ⟨?_, le_refl _, hR, hB⟩
  have : (0 : ℤ) ≤ (if cfg.burst ≤ 0 then DefaultConfig.burst else cfg.burst) := by omega
  exact_mod_cast this

/-- C9: starting from any constructed token bucket and running any
sequence of operations (Allow, Reserve, Reset, refill, and the lock-held
check steps of Wait) at arbitrary instants, the token count stays within
[0, burst]; moreover Reset always restores the count to exactly the burst
capacity. -/
theorem tokenBucket_tokens_bounded (cfg : Config) (now0 : ℤ) (ops : List TBOp) :
    (0 ≤ ((NewTokenBucket cfg now0).run ops).tokens ∧
      ((NewTokenBucket cfg now0).run ops).tokens ≤
        (((NewTokenBucket cfg now0).run ops).burst : ℚ)) ∧
    (∀ (tb : TokenBucket) (now : ℤ), (tb.reset now).tokens = (tb.burst : ℚ)) := by
  have hg := tokenBucket_run_good ops (NewTokenBucket cfg now0) (newTokenBucket_good cfg now0)
  exact ⟨⟨hg.1, hg.2.1⟩, fun tb now => rfl⟩

/-- Witness for tokenBucket_wait_single_recheck: an empty 1-token bucket
with an already-fired signal gets the cancellation outcome, state exactly
as refilled and nothing consumed. -/
theorem tokenBucket_wait_single_recheck_witness :
    (TokenBucket.wait { rate := 1, burst := 1, tokens := 0, lastUpdate := 0 } 0 true id 0).state =
      TokenBucket.refill { rate := 1, burst := 1, tokens := 0, lastUpdate := 0 } 0 ∧
    (TokenBucket.wait { rate := 1, burst := 1, tokens := 0, lastUpdate := 0 } 0 true id 0).consumed =
      false :=
  (tokenBucket_wait_single_recheck { rate := 1, burst := 1, tokens := 0, lastUpdate := 0 }
    0 0 true id).2.1 (by norm_num [TokenBucket.wait, TokenBucket.refill])
